import Mathlib

/-!
Verification of the Montgomery-ladder scalar-multiplier family of
`src/pyecsca/ec/mult/ladder.py` (classes `LadderMultiplier`,
`SimpleLadderMultiplier`, `DifferentialLadderMultiplier`) and of the RPA
special-point construction exercised by `src/test/sca/test_rpa.py`.

The multipliers are embedded as pure functions over an arbitrary point type
`G`, parameterized by the formula functions they are constructed with
(`ladd`, `add`, `dbl`, `dadd`, optional `scl`).  Every `multiply` call is
modelled as a value of `Except MultError (MultOutput G)`: the result point,
the ordered list of formula invocations performed (the side-channel-relevant
trace), the list of results recorded by `ScalarMultiplicationAction.exit`
(exactly one per successful return path in the source), and a marker telling
whether the `scalar == 0` early-return path produced the output.

Idealized formula semantics (group operations) are modelled from the spec,
since the concrete EFD formula implementations are not part of the sources;
everything about loop structure, iteration counts, bit tests, branch shape,
the uninitialized check and the constructor validation is translated
directly from `ladder.py`.
-/

namespace Pyecsca

/-- The kind of a formula invocation recorded in a trace, one constructor per
formula role used by the ladder family (`_ladd`, `_add`, `_dbl`, `_dadd`,
`_scl` in the source). -/
inductive FormulaCall : Type where
  | ladd : FormulaCall
  | add : FormulaCall
  | dbl : FormulaCall
  | dadd : FormulaCall
  | scl : FormulaCall
  deriving DecidableEq, Repr

/-- Errors a `multiply` call can raise: the `ValueError` of the
`self._initialized` check (source lines 46-47, 98-99, 149-150), and the
`AttributeError` that reading an absent `self._dbl` would raise. -/
inductive MultError : Type where
  | uninitialized : MultError
  | missingFormula : MultError
  deriving DecidableEq, Repr

/-- The observable outcome of one successful `multiply` call: the returned
point, the ordered list of formula invocations performed, the values passed
to `action.exit` (the results the trace records), and whether the output was
produced by the `scalar == 0` early-return (source lines 49-50, 101-102,
152-153) rather than by the bit-processing loop. -/
structure MultOutput (G : Type) where
  result : G
  calls : List FormulaCall
  exits : List G
  earlyZeroExit : Bool
  deriving DecidableEq, Repr

/-- Python `int.bit_length()` with explicit structural fuel
(`bitLenAux n n` suffices because the recursion depth is at most `n`). -/
def bitLenAux : Nat → Nat → Nat
  | 0, _ => 0
  | fuel + 1, n => if n = 0 then 0 else bitLenAux fuel (n / 2) + 1

/-- Python `int.bit_length()`: the number of binary digits of `n`, with
`bitLength 0 = 0`. -/
def bitLength (n : Nat) : Nat := bitLenAux n n

/-- Python `range(top, -1, -1)` as the list `[top, top-1, ..., 0]` of
nonnegative indices; empty when `top < 0`. -/
def downTo0 (top : Int) : List Nat :=
  if top < 0 then [] else (List.range (top.toNat + 1)).reverse

/-- The loop indices of `LadderMultiplier.multiply` (source lines 52-60):
`top = order.bit_length() - 1` in complete mode,
`top = scalar.bit_length() - 2` in incomplete mode, iterated down to 0. -/
def ladderIndices (complete : Bool) (order scalar : Nat) : List Nat :=
  if complete then downTo0 ((bitLength order : Int) - 1)
  else downTo0 ((bitLength scalar : Int) - 2)

/-- The loop indices of `SimpleLadderMultiplier.multiply` (source lines
103-109): `top = order.bit_length() - 1` in complete mode,
`top = scalar.bit_length() - 1` in incomplete mode. -/
def simpleIndices (complete : Bool) (order scalar : Nat) : List Nat :=
  if complete then downTo0 ((bitLength order : Int) - 1)
  else downTo0 ((bitLength scalar : Int) - 1)

/-- The loop indices of `DifferentialLadderMultiplier.multiply` (source lines
154-161), same index computation as the simple ladder. -/
def daddIndices (complete : Bool) (order scalar : Nat) : List Nat :=
  if complete then downTo0 ((bitLength order : Int) - 1)
  else downTo0 ((bitLength scalar : Int) - 1)

/-- One iteration of the `LadderMultiplier.multiply` loop (source lines
60-64): `scalar & (1 << i) == 0` is `Nat.testBit scalar i = false`; on a zero
bit `p0, p1 = ladd(q, p0, p1)`, on a one bit `p1, p0 = ladd(q, p1, p0)`
(the two state arguments swapped). -/
def laddStep {G : Type} (ladd : G → G → G → G × G) (q : G) (scalar : Nat)
    (st : G × G) (i : Nat) : G × G :=
  if scalar.testBit i = false then
    ladd q st.1 st.2
  else
    let r := ladd q st.2 st.1
    (r.2, r.1)

/-- The formula invocations one `LadderMultiplier` loop iteration performs,
branch for branch as in source lines 61-64: one `ladd` call either way. -/
def laddStepCalls (scalar : Nat) (i : Nat) : List FormulaCall :=
  if scalar.testBit i = false then [.ladd] else [.ladd]

/-- One iteration of the `SimpleLadderMultiplier.multiply` loop (source lines
109-115): on a zero bit `p1 = add(p0, p1); p0 = dbl(p0)`, on a one bit
`p0 = add(p0, p1); p1 = dbl(p1)`; both assignments read the pre-iteration
state. -/
def simpleStep {G : Type} (add : G → G → G) (dbl : G → G) (scalar : Nat)
    (st : G × G) (i : Nat) : G × G :=
  if scalar.testBit i = false then
    (dbl st.1, add st.1 st.2)
  else
    (add st.1 st.2, dbl st.2)

/-- The formula invocations one `SimpleLadderMultiplier` loop iteration
performs (source lines 110-115): one `add` then one `dbl` either way. -/
def simpleStepCalls (scalar : Nat) (i : Nat) : List FormulaCall :=
  if scalar.testBit i = false then [.add, .dbl] else [.add, .dbl]

/-- One iteration of the `DifferentialLadderMultiplier.multiply` loop (source
lines 161-167): on a zero bit `p1 = dadd(q, p0, p1); p0 = dbl(p0)`, on a one
bit `p0 = dadd(q, p0, p1); p1 = dbl(p1)`. -/
def daddStep {G : Type} (dadd : G → G → G → G) (dbl : G → G) (q : G)
    (scalar : Nat) (st : G × G) (i : Nat) : G × G :=
  if scalar.testBit i = false then
    (dbl st.1, dadd q st.1 st.2)
  else
    (dadd q st.1 st.2, dbl st.2)

/-- The formula invocations one `DifferentialLadderMultiplier` loop iteration
performs (source lines 162-167): one `dadd` then one `dbl` either way. -/
def daddStepCalls (scalar : Nat) (i : Nat) : List FormulaCall :=
  if scalar.testBit i = false then [.dadd, .dbl] else [.dadd, .dbl]

/-- `LadderMultiplier.multiply` (source lines 45-67).  Checks
`self._initialized` first; returns the neutral element through
`action.exit` when `scalar == 0` (note: without consulting `short_circuit`);
otherwise seeds `(p0, p1)` as `(neutral, q)` in complete mode or
`(q, dbl(q))` in incomplete mode (reading `self._dbl`, absent when the
multiplier was built without a doubling formula), folds the ladder step over
the loop indices, applies the optional scaling formula, and exits with
`p0`. -/
def ladderMultiply {G : Type} (ladd : G → G → G → G × G)
    (dbl : Option (G → G)) (scl : Option (G → G)) (order : Nat) (neutral : G)
    (complete short_circuit initialized : Bool) (point : G) (scalar : Nat) :
    Except MultError (MultOutput G) :=
  if initialized = false then .error .uninitialized
  else if scalar = 0 then .ok ⟨neutral, [], [neutral], true⟩
  else
    let q := point
    let idxs := ladderIndices complete order scalar
    let startE : Except MultError ((G × G) × List FormulaCall) :=
      if complete then .ok ((neutral, q), [])
      else
        match dbl with
        | some d => .ok ((q, d q), [.dbl])
        | none => .error .missingFormula
    match startE with
    | .error e => .error e
    | .ok (p01, preCalls) =>
      let st := idxs.foldl (laddStep ladd q scalar) p01
      let loopCalls := (idxs.map (laddStepCalls scalar)).flatten
      match scl with
      | some f => .ok ⟨f st.1, preCalls ++ loopCalls ++ [.scl], [f st.1], false⟩
      | none => .ok ⟨st.1, preCalls ++ loopCalls, [st.1], false⟩

/-- `SimpleLadderMultiplier.multiply` (source lines 97-118): initialized
check, `scalar == 0` early return (again independent of `short_circuit`),
state seeded as `(neutral, point)`, per-bit add/double steps, optional
scaling. -/
def simpleMultiply {G : Type} (add : G → G → G) (dbl : G → G)
    (scl : Option (G → G)) (order : Nat) (neutral : G)
    (complete short_circuit initialized : Bool) (point : G) (scalar : Nat) :
    Except MultError (MultOutput G) :=
  if initialized = false then .error .uninitialized
  else if scalar = 0 then .ok ⟨neutral, [], [neutral], true⟩
  else
    let idxs := simpleIndices complete order scalar
    let st := idxs.foldl (simpleStep add dbl scalar) (neutral, point)
    let loopCalls := (idxs.map (simpleStepCalls scalar)).flatten
    match scl with
    | some f => .ok ⟨f st.1, loopCalls ++ [.scl], [f st.1], false⟩
    | none => .ok ⟨st.1, loopCalls, [st.1], false⟩

/-- `DifferentialLadderMultiplier.multiply` (source lines 148-170):
initialized check, `scalar == 0` early return (independent of
`short_circuit`), state seeded as `(neutral, q)`, per-bit
differential-add/double steps, optional scaling. -/
def daddMultiply {G : Type} (dadd : G → G → G → G) (dbl : G → G)
    (scl : Option (G → G)) (order : Nat) (neutral : G)
    (complete short_circuit initialized : Bool) (point : G) (scalar : Nat) :
    Except MultError (MultOutput G) :=
  if initialized = false then .error .uninitialized
  else if scalar = 0 then .ok ⟨neutral, [], [neutral], true⟩
  else
    let q := point
    let idxs := daddIndices complete order scalar
    let st := idxs.foldl (daddStep dadd dbl q scalar) (neutral, q)
    let loopCalls := (idxs.map (daddStepCalls scalar)).flatten
    match scl with
    | some f => .ok ⟨f st.1, loopCalls ++ [.scl], [f st.1], false⟩
    | none => .ok ⟨st.1, loopCalls, [st.1], false⟩

/-- The result point of a `multiply` call, `none` when the call raised. -/
def resultOf {G : Type} (e : Except MultError (MultOutput G)) : Option G :=
  match e with
  | .ok o => some o.result
  | .error _ => none

/-- Modelled from the spec: a correct three-input/two-output ladder formula
(spec section 4.1, "Ladder formulas take three points (the fixed base, and the
two ladder state points) and return two outputs, fusing one addition and one
doubling step"): `ladd(q, a, b) = (a + a, a + b)`; only the group structure
of the point set is modelled, the fixed base `q` carries the implicit
difference. -/
def idealLadd {G : Type} [AddCommMonoid G] (q a b : G) : G × G :=
  (a + a, a + b)

/-- Modelled from the spec: a correct addition formula is the group
addition. -/
def idealAdd {G : Type} [AddCommMonoid G] (a b : G) : G := a + b

/-- Modelled from the spec: a correct doubling formula is addition of a point
with itself. -/
def idealDbl {G : Type} [AddCommMonoid G] (a : G) : G := a + a

/-- Modelled from the spec: a correct differential-addition formula adds the
two state points, exploiting their known difference `q` (spec section 4.2,
variant 3). -/
def idealDadd {G : Type} [AddCommMonoid G] (q a b : G) : G := a + b

/-- A loop step has the Montgomery-ladder shape: on a zero bit of `scalar` it
maps `(a, b)` to `(a + a, a + b)`, on a one bit to `(a + b, b + b)`.  All
three multipliers' steps have this shape when built from correct formulas. -/
def LadderShaped {G : Type} [AddCommMonoid G] (scalar : Nat)
    (step : G × G → Nat → G × G) : Prop :=
  ∀ (st : G × G) (i : Nat),
    step st i =
      if scalar.testBit i = false then (st.1 + st.1, st.1 + st.2)
      else (st.1 + st.2, st.2 + st.2)

theorem laddStep_shaped {G : Type} [AddCommMonoid G] (q : G) (scalar : Nat) :
    LadderShaped scalar (laddStep (idealLadd (G := G)) q scalar) := by
  intro st i
  by_cases h : scalar.testBit i = false
  · simp [laddStep, idealLadd, h]
  · simp [laddStep, idealLadd, h, add_comm]

theorem simpleStep_shaped {G : Type} [AddCommMonoid G] (scalar : Nat) :
    LadderShaped scalar
      (simpleStep (idealAdd (G := G)) (idealDbl (G := G)) scalar) := by
  intro st i
  by_cases h : scalar.testBit i = false
  · simp [simpleStep, idealAdd, idealDbl, h]
  · simp [simpleStep, idealAdd, idealDbl, h]

theorem daddStep_shaped {G : Type} [AddCommMonoid G] (q : G) (scalar : Nat) :
    LadderShaped scalar
      (daddStep (idealDadd (G := G)) (idealDbl (G := G)) q scalar) := by
  intro st i
  by_cases h : scalar.testBit i = false
  · simp [daddStep, idealDadd, idealDbl, h]
  · simp [daddStep, idealDadd, idealDbl, h]

/-- Folding a ladder-shaped step over the bit indices `n-1, ..., 0` of `s`,
starting from the pair `((s / 2^n) • q, (s / 2^n + 1) • q)`, ends in
`(s • q, (s + 1) • q)`: the ladder computes the scalar multiple bit by
bit. -/
theorem ladderShaped_fold {G : Type} [AddCommMonoid G] (q : G) (s : Nat)
    (step : G × G → Nat → G × G) (hstep : LadderShaped s step) :
    ∀ n : Nat,
      (List.range n).reverse.foldl step ((s / 2 ^ n) • q, (s / 2 ^ n + 1) • q)
        = (s • q, (s + 1) • q) := by
  intro n
  induction n with
  | zero => simp
  | succ n ih =>
    have hrange : (List.range (n + 1)).reverse
        = n :: (List.range n).reverse := by
      rw [List.range_succ, List.reverse_append, List.reverse_singleton,
        List.singleton_append]
    rw [hrange, List.foldl_cons, hstep]
    set e := s / 2 ^ n with he
    have hm : s / 2 ^ (n + 1) = e / 2 := by
      rw [he, pow_succ, Nat.div_div_eq_div_mul]
    have hmod : e % 2 = 0 ∨ e % 2 = 1 := Nat.mod_two_eq_zero_or_one e
    have hsplit : e = 2 * (e / 2) + e % 2 := (Nat.div_add_mod e 2).symm
    have hbit : s.testBit n = decide (s / 2 ^ n % 2 = 1) :=
      Nat.testBit_to_div_mod
    by_cases h : s.testBit n = false
    · have h0 : e % 2 = 0 := by
        rw [hbit, decide_eq_false_iff_not] at h
        omega
      have h1 : e = e / 2 + e / 2 := by omega
      have h2 : e + 1 = e / 2 + (e / 2 + 1) := by omega
      rw [if_pos h, hm]
      have hfst : (e / 2) • q + (e / 2) • q = e • q := by
        rw [← add_nsmul, ← h1]
      have hsnd : (e / 2) • q + (e / 2 + 1) • q = (e + 1) • q := by
        rw [← add_nsmul, ← h2]
      rw [hfst, hsnd]
      exact ih
    · have h1 : e % 2 = 1 := by
        rw [hbit] at h
        simp only [decide_eq_false_iff_not, not_not] at h
        exact h
      have h2 : e = e / 2 + (e / 2 + 1) := by omega
      have h3 : e + 1 = (e / 2 + 1) + (e / 2 + 1) := by omega
      rw [if_neg h, hm]
      have hfst : (e / 2) • q + (e / 2 + 1) • q = e • q := by
        rw [← add_nsmul, ← h2]
      have hsnd : (e / 2 + 1) • q + (e / 2 + 1) • q = (e + 1) • q := by
        rw [← add_nsmul, ← h3]
      rw [hfst, hsnd]
      exact ih

theorem bitLenAux_lt (fuel : Nat) :
    ∀ n : Nat, n ≤ fuel → n < 2 ^ bitLenAux fuel n := by
  induction fuel with
  | zero =>
    intro n hn
    interval_cases n
    simp [bitLenAux]
  | succ fuel ih =>
    intro n hn
    by_cases h0 : n = 0
    · simp [bitLenAux, h0]
    · have hdiv : n / 2 ≤ fuel := by omega
      have := ih (n / 2) hdiv
      simp only [bitLenAux, h0, if_false]
      rw [pow_succ]
      omega

/-- Every natural number is below `2 ^ bitLength n`: `bit_length` bits
suffice to write `n`. -/
theorem lt_two_pow_bitLength (n : Nat) : n < 2 ^ bitLength n :=
  bitLenAux_lt n n le_rfl

/-- `range(b - 1, -1, -1)` lists the `b` indices `b-1, ..., 0`. -/
theorem downTo0_sub_one (b : Nat) :
    downTo0 ((b : Int) - 1) = (List.range b).reverse := by
  cases b with
  | zero => simp [downTo0]
  | succ m =>
    have h : ¬((m + 1 : Int) - 1 < 0) := by omega
    have ht : ((m + 1 : Int) - 1).toNat = m := by omega
    simp [downTo0, h, ht]

/-- `range(b - 2, -1, -1)` lists the `b - 1` indices `b-2, ..., 0`. -/
theorem downTo0_sub_two (b : Nat) :
    downTo0 ((b : Int) - 2) = (List.range (b - 1)).reverse := by
  cases b with
  | zero => simp [downTo0]
  | succ m =>
    cases m with
    | zero => simp [downTo0]
    | succ m' =>
      have h : ¬((m' + 1 + 1 : Int) - 2 < 0) := by omega
      have ht : ((m' + 1 + 1 : Int) - 2).toNat = m' := by omega
      have hb : m' + 1 + 1 - 1 = m' + 1 := by omega
      simp [downTo0, h, ht, hb]

/-- Folding a ladder-shaped step over the complete-mode index list starting
from `(0, q)` yields `(s • q, (s + 1) • q)` whenever `s` fits in
`bitLength order` bits. -/
theorem ladderShaped_fold_complete {G : Type} [AddCommMonoid G] (q : G)
    (s order : Nat) (step : G × G → Nat → G × G)
    (hstep : LadderShaped s step) (hs : s < 2 ^ bitLength order) :
    (downTo0 ((bitLength order : Int) - 1)).foldl step (0, q)
      = (s • q, (s + 1) • q) := by
  rw [downTo0_sub_one]
  have hdiv : s / 2 ^ bitLength order = 0 := Nat.div_eq_of_lt hs
  have := ladderShaped_fold q s step hstep (bitLength order)
  rw [hdiv] at this
  simpa using this

theorem ladder_complete_result {G : Type} [AddCommMonoid G] (q : G)
    (order k : Nat) (sc : Bool) (hk : k < 2 ^ bitLength order) :
    resultOf (ladderMultiply idealLadd (some idealDbl) none order (0 : G)
      true sc true q k) = some (k • q) := by
  by_cases h0 : k = 0
  · subst h0
    simp [ladderMultiply, resultOf]
  · have hfold := ladderShaped_fold_complete q k order
      (laddStep (idealLadd (G := G)) q k) (laddStep_shaped q k) hk
    simp only [ladderMultiply, ladderIndices, if_true, if_false, h0,
      reduceIte, resultOf]
    rw [hfold]
    simp

theorem simple_complete_result {G : Type} [AddCommMonoid G] (q : G)
    (order k : Nat) (sc : Bool) (hk : k < 2 ^ bitLength order) :
    resultOf (simpleMultiply idealAdd idealDbl none order (0 : G)
      true sc true q k) = some (k • q) := by
  by_cases h0 : k = 0
  · subst h0
    simp [simpleMultiply, resultOf]
  · have hfold := ladderShaped_fold_complete q k order
      (simpleStep (idealAdd (G := G)) (idealDbl (G := G)) k)
      (simpleStep_shaped k) hk
    simp only [simpleMultiply, simpleIndices, if_true, if_false, h0,
      reduceIte, resultOf]
    rw [hfold]
    simp

theorem dadd_complete_result {G : Type} [AddCommMonoid G] (q : G)
    (order k : Nat) (sc : Bool) (hk : k < 2 ^ bitLength order) :
    resultOf (daddMultiply idealDadd idealDbl none order (0 : G)
      true sc true q k) = some (k • q) := by
  by_cases h0 : k = 0
  · subst h0
    simp [daddMultiply, resultOf]
  · have hfold := ladderShaped_fold_complete q k order
      (daddStep (idealDadd (G := G)) (idealDbl (G := G)) q k)
      (daddStep_shaped q k) hk
    simp only [daddMultiply, daddIndices, if_true, if_false, h0,
      reduceIte, resultOf]
    rw [hfold]
    simp

/-- Claim C1: for every scalar `k` in `[0, order)` and a fixed point `q`, the
complete-mode `LadderMultiplier`, `SimpleLadderMultiplier` and
`DifferentialLadderMultiplier` built from compatible (correct) formulas
return equal results from `multiply(k)`.  The point set is modelled as an
arbitrary additive commutative monoid, so point equality here is equality
after affine normalization. -/
theorem ladder_family_complete_agreement {G : Type} [AddCommMonoid G]
    (q : G) (order k : Nat) (sc1 sc2 sc3 : Bool) (hk : k < order) :
    resultOf (ladderMultiply idealLadd (some idealDbl) none order (0 : G)
        true sc1 true q k)
      = resultOf (simpleMultiply idealAdd idealDbl none order (0 : G)
        true sc2 true q k) ∧
    resultOf (simpleMultiply idealAdd idealDbl none order (0 : G)
        true sc2 true q k)
      = resultOf (daddMultiply idealDadd idealDbl none order (0 : G)
        true sc3 true q k) := by
  have hk2 : k < 2 ^ bitLength order :=
    lt_trans hk (lt_two_pow_bitLength order)
  rw [ladder_complete_result q order k sc1 hk2,
    simple_complete_result q order k sc2 hk2,
    dadd_complete_result q order k sc3 hk2]
  exact ⟨rfl, rfl⟩

/-- Witness for C1 at `G = ℤ`, `q = 1`, `order = 5`, `k = 3`. -/
theorem ladder_family_complete_agreement_witness :
    3 < 5 ∧
    (resultOf (ladderMultiply idealLadd (some idealDbl) none 5 (0 : ℤ)
        true true true 1 3)
      = resultOf (simpleMultiply idealAdd idealDbl none 5 (0 : ℤ)
        true true true 1 3) ∧
    resultOf (simpleMultiply idealAdd idealDbl none 5 (0 : ℤ)
        true true true 1 3)
      = resultOf (daddMultiply idealDadd idealDbl none 5 (0 : ℤ)
        true true true 1 3)) :=
  ⟨by decide,
    ladder_family_complete_agreement (1 : ℤ) 5 3 true true true (by decide)⟩

/-- The `(p0, p1)` state of `LadderMultiplier.multiply` after `n` loop
iterations, with correct formulas: the initial state of source lines 52-59
(`(neutral, q)` in complete mode, `(q, dbl(q))` in incomplete mode) folded
through the first `n` loop indices. -/
def ladderStateAfter {G : Type} [AddCommMonoid G] (complete : Bool)
    (order s n : Nat) (q : G) : G × G :=
  ((ladderIndices complete order s).take n).foldl
    (laddStep idealLadd q s) (if complete then ((0 : G), q) else (q, idealDbl q))

/-- The `(p0, p1)` state of `SimpleLadderMultiplier.multiply` after `n` loop
iterations, with correct formulas: initial state `(neutral, point)` of source
lines 107-108. -/
def simpleStateAfter {G : Type} [AddCommMonoid G] (complete : Bool)
    (order s n : Nat) (q : G) : G × G :=
  ((simpleIndices complete order s).take n).foldl
    (simpleStep idealAdd idealDbl s) ((0 : G), q)

/-- The `(p0, p1)` state of `DifferentialLadderMultiplier.multiply` after `n`
loop iterations, with correct formulas: initial state `(neutral, q)` of
source lines 159-160. -/
def daddStateAfter {G : Type} [AddCommMonoid G] (complete : Bool)
    (order s n : Nat) (q : G) : G × G :=
  ((daddIndices complete order s).take n).foldl
    (daddStep idealDadd idealDbl q s) ((0 : G), q)

/-- A ladder-shaped step preserves the difference `p1 - p0` of the running
state pair, over any list of bit indices. -/
theorem ladderShaped_foldl_sub {G : Type} [AddCommGroup G] (q : G) (s : Nat)
    (step : G × G → Nat → G × G) (hstep : LadderShaped s step) :
    ∀ (l : List Nat) (st : G × G), st.2 - st.1 = q →
      (l.foldl step st).2 - (l.foldl step st).1 = q := by
  intro l
  induction l with
  | nil => intro st h; simpa using h
  | cons i l ih =>
    intro st h
    rw [List.foldl_cons]
    apply ih
    rw [hstep]
    by_cases hb : s.testBit i = false
    · rw [if_pos hb]
      have : (st.1 + st.2) - (st.1 + st.1) = st.2 - st.1 := by abel
      rw [this, h]
    · rw [if_neg hb]
      have : (st.2 + st.2) - (st.1 + st.2) = st.2 - st.1 := by abel
      rw [this, h]

/-- Claim C2: for every scalar `s ≥ 1`, every point `q`, both processing
modes and every iteration count `n`, the state pair `(p0, p1)` of each
ladder-family multiplier run with correct formulas satisfies the defining
ladder invariant `p1 - p0 = q` after `n` loop iterations (hence at every
iteration of the bit-processing loop). -/
theorem ladder_family_invariant {G : Type} [AddCommGroup G] (q : G)
    (complete : Bool) (order s n : Nat) (hs : 1 ≤ s) :
    (ladderStateAfter complete order s n q).2
        - (ladderStateAfter complete order s n q).1 = q ∧
    (simpleStateAfter complete order s n q).2
        - (simpleStateAfter complete order s n q).1 = q ∧
    (daddStateAfter complete order s n q).2
        - (daddStateAfter complete order s n q).1 = q := by
  refine ⟨?_, ?_, ?_⟩
  · apply ladderShaped_foldl_sub q s _ (laddStep_shaped q s)
    by_cases hc : complete = true
    · rw [hc, if_pos rfl]
      exact sub_zero q
    · have hc2 : complete = false := by
        cases complete
        · rfl
        · exact absurd rfl hc
      rw [hc2]
      simp [idealDbl]
  · apply ladderShaped_foldl_sub q s _ (simpleStep_shaped s)
    exact sub_zero q
  · apply ladderShaped_foldl_sub q s _ (daddStep_shaped q s)
    exact sub_zero q

/-- Witness for C2 at `G = ℤ`, `q = 1`, complete mode, `order = 5`, `s = 3`,
`n = 2`. -/
theorem ladder_family_invariant_witness :
    1 ≤ 3 ∧
    ((ladderStateAfter true 5 3 2 (1 : ℤ)).2
        - (ladderStateAfter true 5 3 2 (1 : ℤ)).1 = 1 ∧
    (simpleStateAfter true 5 3 2 (1 : ℤ)).2
        - (simpleStateAfter true 5 3 2 (1 : ℤ)).1 = 1 ∧
    (daddStateAfter true 5 3 2 (1 : ℤ)).2
        - (daddStateAfter true 5 3 2 (1 : ℤ)).1 = 1) :=
  ⟨by decide, ladder_family_invariant (1 : ℤ) true 5 3 2 (by decide)⟩

/-- Number of iterations of the `LadderMultiplier.multiply` bit-processing
loop (the length of the index list of `range(top, -1, -1)`). -/
def ladderIterCount (complete : Bool) (order scalar : Nat) : Nat :=
  (ladderIndices complete order scalar).length

/-- Number of iterations of the `SimpleLadderMultiplier.multiply`
bit-processing loop. -/
def simpleIterCount (complete : Bool) (order scalar : Nat) : Nat :=
  (simpleIndices complete order scalar).length

/-- Number of iterations of the `DifferentialLadderMultiplier.multiply`
bit-processing loop. -/
def daddIterCount (complete : Bool) (order scalar : Nat) : Nat :=
  (daddIndices complete order scalar).length

/-- Counterexample to claim C3 as stated: for `order = 5`
(`bit_length = 3`) the complete-mode loop of `SimpleLadderMultiplier` runs
over `range(2, -1, -1)`, i.e. 3 iterations, not `order.bit_length() - 1 = 2`
iterations. -/
theorem iterCount_claim_counterexample :
    ¬(simpleIterCount true 5 1 = bitLength 5 - 1) := by decide

/-- Claim C3 amended: for every order and scalar, the bit-processing loop of
each ladder-family multiplier runs `order.bit_length()` iterations in
complete mode (indices `order.bit_length() - 1` down to `0`, independent of
the scalar), and in incomplete mode `scalar.bit_length()` iterations
(`scalar.bit_length() - 1` for `LadderMultiplier`, which pre-consumes the
top bit before the loop). -/
theorem ladder_family_iterCount (order scalar : Nat) :
    ladderIterCount true order scalar = bitLength order ∧
    simpleIterCount true order scalar = bitLength order ∧
    daddIterCount true order scalar = bitLength order ∧
    ladderIterCount false order scalar = bitLength scalar - 1 ∧
    simpleIterCount false order scalar = bitLength scalar ∧
    daddIterCount false order scalar = bitLength scalar := by
  refine ⟨?_, ?_, ?_, ?_, ?_, ?_⟩ <;>
    simp [ladderIterCount, simpleIterCount, daddIterCount, ladderIndices,
      simpleIndices, daddIndices, downTo0_sub_one, downTo0_sub_two]

/-- The list of results recorded by `action.exit` during a `multiply` call,
empty when the call raised. -/
def exitsOf {G : Type} (e : Except MultError (MultOutput G)) : List G :=
  match e with
  | .ok o => o.exits
  | .error _ => []

/-- Counterexample to claim C4 as stated: a `SimpleLadderMultiplier`
constructed with `short_circuit = False` (here over `ℤ` with correct
formulas, `order = 5`, base point `1`) still takes the `scalar == 0`
early-return path in `multiply(0)`: the output is produced by the early
return (marker `true`), with no formula invocation and no loop iteration.
The `scalar == 0` test of source lines 101-102 does not consult
`short_circuit`. -/
theorem short_circuit_zero_claim_counterexample :
    simpleMultiply idealAdd idealDbl none 5 (0 : ℤ) true false true 1 0
      = .ok ⟨0, [], [0], true⟩ := rfl

/-- Claim C4 amended: the `scalar = 0` early return of every ladder-family
multiplier is unconditional — it is taken for every value of the
`short_circuit` flag (and of `complete`), returning the neutral element with
no formula invocations; `short_circuit` does not control this path. -/
theorem zero_scalar_early_return_unconditional {G : Type}
    (ladd : G → G → G → G × G) (dbl1 : Option (G → G)) (add : G → G → G)
    (dbl2 : G → G) (dadd : G → G → G → G) (dbl3 : G → G)
    (scl : Option (G → G)) (order : Nat) (neutral : G)
    (complete sc : Bool) (point : G) :
    ladderMultiply ladd dbl1 scl order neutral complete sc true point 0
      = .ok ⟨neutral, [], [neutral], true⟩ ∧
    simpleMultiply add dbl2 scl order neutral complete sc true point 0
      = .ok ⟨neutral, [], [neutral], true⟩ ∧
    daddMultiply dadd dbl3 scl order neutral complete sc true point 0
      = .ok ⟨neutral, [], [neutral], true⟩ :=
  ⟨rfl, rfl, rfl⟩

/-- Claim C5: for every initialized ladder-family multiplier, with any
`short_circuit` and `complete` settings and any formulas, `multiply(0)`
returns the curve's neutral element, and the trace for that call records
exactly one result: the neutral element. -/
theorem multiply_zero_law {G : Type}
    (ladd : G → G → G → G × G) (dbl1 : Option (G → G)) (add : G → G → G)
    (dbl2 : G → G) (dadd : G → G → G → G) (dbl3 : G → G)
    (scl : Option (G → G)) (order : Nat) (neutral : G)
    (complete sc : Bool) (point : G) :
    resultOf (ladderMultiply ladd dbl1 scl order neutral complete sc true
        point 0) = some neutral ∧
    exitsOf (ladderMultiply ladd dbl1 scl order neutral complete sc true
        point 0) = [neutral] ∧
    resultOf (simpleMultiply add dbl2 scl order neutral complete sc true
        point 0) = some neutral ∧
    exitsOf (simpleMultiply add dbl2 scl order neutral complete sc true
        point 0) = [neutral] ∧
    resultOf (daddMultiply dadd dbl3 scl order neutral complete sc true
        point 0) = some neutral ∧
    exitsOf (daddMultiply dadd dbl3 scl order neutral complete sc true
        point 0) = [neutral] :=
  ⟨rfl, rfl, rfl, rfl, rfl, rfl⟩

/-- Claim C7: calling `multiply` on a ladder-family multiplier that has not
been initialized fails with the uninitialized-state error, for every scalar
and every configuration, performing no curve operation (the error is raised
before any formula is invoked). -/
theorem multiply_uninitialized_fails {G : Type}
    (ladd : G → G → G → G × G) (dbl1 : Option (G → G)) (add : G → G → G)
    (dbl2 : G → G) (dadd : G → G → G → G) (dbl3 : G → G)
    (scl : Option (G → G)) (order : Nat) (neutral : G)
    (complete sc : Bool) (point : G) (scalar : Nat) :
    ladderMultiply ladd dbl1 scl order neutral complete sc false point scalar
      = .error .uninitialized ∧
    simpleMultiply add dbl2 scl order neutral complete sc false point scalar
      = .error .uninitialized ∧
    daddMultiply dadd dbl3 scl order neutral complete sc false point scalar
      = .error .uninitialized :=
  ⟨rfl, rfl, rfl⟩

/-- Claim C8: in every iteration of the bit-processing loop, each
ladder-family multiplier invokes the same formulas in the same order
regardless of the current bit value: exactly one `ladd` call per bit for
`LadderMultiplier` (with the two state arguments swapped according to the
bit, see `laddStep`), and exactly one `add` (resp. `dadd`) call followed by
exactly one `dbl` call per bit for `SimpleLadderMultiplier`
(resp. `DifferentialLadderMultiplier`). -/
theorem step_calls_bit_independent (scalar i : Nat) :
    laddStepCalls scalar i = [.ladd] ∧
    simpleStepCalls scalar i = [.add, .dbl] ∧
    daddStepCalls scalar i = [.dadd, .dbl] := by
  refine ⟨?_, ?_, ?_⟩ <;>
    simp [laddStepCalls, simpleStepCalls, daddStepCalls]

/-- The configuration and bound state of a `LadderMultiplier`: the formula
set fixed at construction, the `complete` and `short_circuit` flags, and the
state bound by `init` (domain parameters — here the order and the neutral
point — plus the base point and the initialized flag). -/
structure LadderMultState (G : Type) where
  ladd : G → G → G → G × G
  dbl : Option (G → G)
  scl : Option (G → G)
  complete : Bool
  short_circuit : Bool
  initialized : Bool
  order : Nat
  neutral : G
  point : G

/-- `LadderMultiplier.multiply` as a state transformer.  The method body
(source lines 45-67) contains no assignment to any attribute of `self`, so
the state it returns is the state it received. -/
def LadderMultState.multiplyS {G : Type} (self : LadderMultState G)
    (scalar : Nat) : Except MultError (MultOutput G) × LadderMultState G :=
  (ladderMultiply self.ladd self.dbl self.scl self.order self.neutral
    self.complete self.short_circuit self.initialized self.point scalar,
   self)

/-- The configuration and bound state of a `SimpleLadderMultiplier`. -/
structure SimpleMultState (G : Type) where
  add : G → G → G
  dbl : G → G
  scl : Option (G → G)
  complete : Bool
  short_circuit : Bool
  initialized : Bool
  order : Nat
  neutral : G
  point : G

/-- `SimpleLadderMultiplier.multiply` as a state transformer (source lines
97-118, no assignment to `self`). -/
def SimpleMultState.multiplyS {G : Type} (self : SimpleMultState G)
    (scalar : Nat) : Except MultError (MultOutput G) × SimpleMultState G :=
  (simpleMultiply self.add self.dbl self.scl self.order self.neutral
    self.complete self.short_circuit self.initialized self.point scalar,
   self)

/-- The configuration and bound state of a `DifferentialLadderMultiplier`. -/
structure DaddMultState (G : Type) where
  dadd : G → G → G → G
  dbl : G → G
  scl : Option (G → G)
  complete : Bool
  short_circuit : Bool
  initialized : Bool
  order : Nat
  neutral : G
  point : G

/-- `DifferentialLadderMultiplier.multiply` as a state transformer (source
lines 148-170, no assignment to `self`). -/
def DaddMultState.multiplyS {G : Type} (self : DaddMultState G)
    (scalar : Nat) : Except MultError (MultOutput G) × DaddMultState G :=
  (daddMultiply self.dadd self.dbl self.scl self.order self.neutral
    self.complete self.short_circuit self.initialized self.point scalar,
   self)

/-- Claim C9: for every ladder-family multiplier and every scalar,
`multiply(scalar)` leaves the multiplier's configuration and bound state
unchanged — the bound order, neutral and base point, the formula set and the
`complete` and `short_circuit` flags are identical before and after the
call. -/
theorem multiply_leaves_state_unchanged {G : Type} (m1 : LadderMultState G)
    (m2 : SimpleMultState G) (m3 : DaddMultState G) (scalar : Nat) :
    (m1.multiplyS scalar).2 = m1 ∧
    (m2.multiplyS scalar).2 = m2 ∧
    (m3.multiplyS scalar).2 = m3 :=
  ⟨rfl, rfl, rfl⟩

/-- The formula roles of the scalar-multiplier contract. -/
inductive FormulaType : Type where
  | ladderF : FormulaType
  | additionF : FormulaType
  | doublingF : FormulaType
  | scalingF : FormulaType
  | diffAdditionF : FormulaType
  deriving DecidableEq, Repr

/-- `LadderMultiplier.requires` (source line 20): only the ladder formula is
mandatory. -/
def ladderRequires : List FormulaType := [.ladderF]

/-- `LadderMultiplier.optionals` (source line 21): doubling and scaling
formulas are optional roles. -/
def ladderOptionals : List FormulaType := [.doublingF, .scalingF]

/-- `LadderMultiplier.__init__` (source lines 24-35) raises `ValueError`
exactly when `(not complete or short_circuit) and dbl is None`. -/
def ladderCtorRaises (dblNone complete short_circuit : Bool) : Bool :=
  (!complete || short_circuit) && dblNone

/-- Claim C10: constructing a `LadderMultiplier` without a doubling formula
raises `ValueError` whenever `complete` is false or `short_circuit` is true,
and succeeds from a ladder formula alone exactly when `complete = true` and
`short_circuit = false` — even though the doubling role is declared only in
the multiplier's optionals set, not in its requires set. -/
theorem ladder_ctor_requires_dbl (complete sc : Bool) :
    (ladderCtorRaises true complete sc = true
      ↔ (complete = false ∨ sc = true)) ∧
    (ladderCtorRaises true complete sc = false
      ↔ (complete = true ∧ sc = false)) ∧
    FormulaType.doublingF ∈ ladderOptionals ∧
    FormulaType.doublingF ∉ ladderRequires := by
  cases complete <;> cases sc <;> exact ⟨by decide, by decide, by decide,
    by decide⟩

/-- The short-Weierstrass curve equation `y^2 = x^3 + a*x + b` over the prime
field of `p`, on affine coordinates represented as naturals below `p`. -/
def onCurve (p a b x y : Nat) : Prop :=
  (y * y) % p = (x * x * x + a * x + b) % p

/-- Modelled from the spec: `rpa_point_x0` of `pyecsca.sca.re.rpa` (module
not under src/, specified by spec section 4.4 and by `test_x0_point` of
`src/test/sca/test_rpa.py`).  It returns a curve point whose affine
y-coordinate is zero when one exists and `None` otherwise, constructed by
solving the curve equation with `y = 0`, i.e. finding a root `x` of
`x^3 + a*x + b` in the field (despite the `x0` name — the spec flags the
naming as inverted). -/
def rpa_point_x0 (p a b : Nat) : Option (Nat × Nat) :=
  ((List.range p).find? fun x => (x * x * x + a * x + b) % p == 0).map
    fun x => (x, 0)

/-- Modelled from the spec: `rpa_point_0y` of `pyecsca.sca.re.rpa` (module
not under src/, specified by spec section 4.4 and by `test_0y_point`).  It
returns a curve point whose affine x-coordinate is zero when one exists and
`None` otherwise, constructed by solving `y^2 = b` in the field. -/
def rpa_point_0y (p a b : Nat) : Option (Nat × Nat) :=
  ((List.range p).find? fun y => (y * y) % p == b % p).map
    fun y => (0, y)

/-- The field prime of the RPA test curve of `src/test/sca/test_rpa.py`. -/
def rpaP : Nat := 0x85d265945a4f5681

/-- Coefficient `a` of the RPA test curve. -/
def rpaA : Nat := 0x7fc57b4110698bc0

/-- Coefficient `b` of the RPA test curve. -/
def rpaB : Nat := 0x37113ea591b04527

/-- Claim C6: on the RPA test curve, `rpa_point_x0` returns a (non-null)
on-curve point whose affine y-coordinate is 0, and `rpa_point_0y` returns a
(non-null) on-curve point whose affine x-coordinate is 0, matching the
assertions of `test_x0_point` and `test_0y_point`. -/
theorem rpa_points_exist_on_test_curve :
    (∃ x, rpa_point_x0 rpaP rpaA rpaB = some (x, 0) ∧
      onCurve rpaP rpaA rpaB x 0) ∧
    (∃ y, rpa_point_0y rpaP rpaA rpaB = some (0, y) ∧
      onCurve rpaP rpaA rpaB 0 y) := by
  constructor
  · have hmem : (0x4880bcf620852a54 : Nat) ∈ List.range rpaP :=
      List.mem_range.mpr (by decide)
    have hpred : (((0x4880bcf620852a54 : Nat) * 0x4880bcf620852a54 *
        0x4880bcf620852a54 + rpaA * 0x4880bcf620852a54 + rpaB) % rpaP == 0)
          = true := by decide
    have hsome : ((List.range rpaP).find?
        fun x => (x * x * x + rpaA * x + rpaB) % rpaP == 0).isSome :=
      List.find?_isSome.mpr ⟨_, hmem, hpred⟩
    obtain ⟨x, hx⟩ := Option.isSome_iff_exists.mp hsome
    have hroot := @List.find?_some Nat
      (fun x => (x * x * x + rpaA * x + rpaB) % rpaP == 0) x
      (List.range rpaP) hx
    have hroot2 : ((x * x * x + rpaA * x + rpaB) % rpaP == 0) = true := hroot
    have hval : (x * x * x + rpaA * x + rpaB) % rpaP = 0 := eq_of_beq hroot2
    refine ⟨x, ?_, ?_⟩
    · rw [rpa_point_x0, hx]
      rfl
    · simp [onCurve, hval]
  · have hmem : (0x6bed3155c9ada064 : Nat) ∈ List.range rpaP :=
      List.mem_range.mpr (by decide)
    have hpred : (((0x6bed3155c9ada064 : Nat) * 0x6bed3155c9ada064) % rpaP
        == rpaB % rpaP) = true := by decide
    have hsome : ((List.range rpaP).find?
        fun y => (y * y) % rpaP == rpaB % rpaP).isSome :=
      List.find?_isSome.mpr ⟨_, hmem, hpred⟩
    obtain ⟨y, hy⟩ := Option.isSome_iff_exists.mp hsome
    have hsq := @List.find?_some Nat
      (fun y => (y * y) % rpaP == rpaB % rpaP) y (List.range rpaP) hy
    have hsq2 : ((y * y) % rpaP == rpaB % rpaP) = true := hsq
    have hval : (y * y) % rpaP = rpaB % rpaP := eq_of_beq hsq2
    refine ⟨y, ?_, ?_⟩
    · rw [rpa_point_0y, hy]
      rfl
    · simp [onCurve, hval]

end Pyecsca
